import Mathlib

/-!
Verification of the Storyline / OpenAI Realtime integration (`src/user.js`,
`src/storyline_integration.js`).

The JavaScript source is shallowly embedded: audio samples and clock times are
exact rationals (`ℚ`), 16-bit machine integers are `ℤ` with the JS `ToInt16`
truncate-and-wrap conversion made explicit, and the event/callback-driven parts
(playback scheduler, capture pipeline) are modelled as explicit step functions
on state records driven by lists of events.
-/

/-! ## PCM16 codec (`user.js` lines 395-399, 1470-1477, 1503-1549;
`storyline_integration.js` lines 177-184) -/

/-- Truncation toward zero of a rational, as performed by the JavaScript
`ToIntegerOrInfinity` step when a number is stored into an `Int16Array`. -/
def ratTrunc (q : ℚ) : ℤ := if q < 0 then ⌈q⌉ else ⌊q⌋

/-- JavaScript `ToInt16`: wrap an integer into the signed 16-bit range
`[-32768, 32767]`, as performed on assignment into an `Int16Array`. -/
def toInt16 (z : ℤ) : ℤ := (z + 32768) % 65536 - 32768

/-- Single-sample body of `convertToPCM16` (`user.js` 1470-1477, and the
textually identical copy in `storyline_integration.js` 177-184):
`const s = Math.max(-1, Math.min(1, x)); pcm16[i] = s < 0 ? s * 0x8000 : s * 0x7FFF`. -/
def convertToPCM16Elem (s : ℚ) : ℤ :=
  toInt16 (ratTrunc (if max (-1) (min 1 s) < 0 then max (-1) (min 1 s) * 32768
    else max (-1) (min 1 s) * 32767))

/-- `convertToPCM16` applied to a whole frame. -/
def convertToPCM16 (xs : List ℚ) : List ℤ := xs.map convertToPCM16Elem

/-- Single-sample body of the inline capture-path encoder of the WebRTC variant
(`user.js` 395-399): `pcm16Data[i] = Math.max(-32768, Math.min(32767, x * 32767))`. -/
def inlineEncodeElem (s : ℚ) : ℤ :=
  toInt16 (ratTrunc (max (-32768) (min 32767 (s * 32767))))

/-- Int16-to-float conversion used by `playAudioDelta` (`user.js` 1531):
`float32Array[i] = int16Array[i] / 32768.0`. -/
def decodeSample (v : ℤ) : ℚ := (v : ℚ) / 32768

/-- Round trip of a single sample through the encoder of `convertToPCM16`
and the decoder of `playAudioDelta`. -/
def roundTrip (s : ℚ) : ℚ := decodeSample (convertToPCM16Elem s)

/-! ## Playback Scheduler (`user.js` 1503-1596 and 1723-1775; WebRTC variant
600-643 is structurally identical).

The scheduler state is the quadruple of mutable fields used by
`playAudioDelta` / `startSeamlessPlayback` / `scheduleNextChunk`:
`playbackAudioContext` initialisation status, `audioQueue` (modelled by the
queued chunks' durations in seconds), `isPlayingAudio`, and `nextPlayTime`.
The `setTimeout` callbacks are modelled as events delivered to a step
function: `chunkTimer` is the per-chunk timer set after scheduling a chunk
(`setTimeout(() => this.scheduleNextChunk(), ...)`), and `graceTimer` is the
1000 ms empty-queue re-check callback.  The model places no constraint on the
relative order of events, which only makes the proved properties stronger. -/

/-- Error raised when the decoded audio byte buffer cannot be viewed as an
`Int16Array` (odd byte length), `user.js` 1526. -/
inductive PlayError
  | malformedAudio
deriving DecidableEq

/-- Signed 16-bit value of a little-endian byte pair. -/
def toSigned16 (n : ℕ) : ℤ := if n < 32768 then (n : ℤ) else (n : ℤ) - 65536

/-- View of a byte buffer as an `Int16Array` (`new Int16Array(bytes.buffer)`,
`user.js` 1526): little-endian 16-bit reads; a buffer whose length is not a
multiple of 2 throws a `RangeError`, modelled as `MalformedAudio`. -/
def bytesToInt16 : List ℕ → Except PlayError (List ℤ)
  | [] => Except.ok []
  | [_] => Except.error PlayError.malformedAudio
  | lo :: hi :: rest =>
    match bytesToInt16 rest with
    | Except.ok vs => Except.ok (toSigned16 (lo % 256 + 256 * (hi % 256)) :: vs)
    | Except.error e => Except.error e

/-- Mutable scheduler state of the `StorylineRealtimeAI` instance. -/
structure SchedState where
  ctxInit : Bool
  audioQueue : List ℚ
  isPlayingAudio : Bool
  nextPlayTime : ℚ
deriving DecidableEq

/-- Observable actions of the scheduler: scheduling a chunk on the output
device (`source.start(this.nextPlayTime)`) with its start time and duration,
and the playback-complete event (the `isPlayingAudio = false` branch of the
grace re-check). -/
inductive SchedOut
  | sched (start : ℚ) (dur : ℚ)
  | complete
deriving DecidableEq

/-- `scheduleNextChunk` (`user.js` 1738-1775) restricted to its state effect:
on a non-empty queue it shifts the oldest chunk, starts it at exactly
`nextPlayTime`, and advances `nextPlayTime` by the chunk's duration; on an
empty queue it arms the grace re-check timer (modelled as a later
`graceTimer` event) and changes nothing. -/
def scheduleNextChunk (s : SchedState) : SchedState × List SchedOut :=
  match s.audioQueue with
  | [] => (s, [])
  | d :: rest =>
    ({ s with audioQueue := rest, nextPlayTime := s.nextPlayTime + d },
      [SchedOut.sched s.nextPlayTime d])

/-- `startSeamlessPlayback` (`user.js` 1723-1736): no-op if already playing or
nothing is queued; otherwise set `isPlayingAudio`, set
`nextPlayTime = currentTime + 0.1` (the 100 ms lead-in), and schedule the
first chunk. -/
def startSeamlessPlayback (clock : ℚ) (s : SchedState) : SchedState × List SchedOut :=
  if s.isPlayingAudio || s.audioQueue.isEmpty then (s, [])
  else scheduleNextChunk { s with isPlayingAudio := true, nextPlayTime := clock + 1 / 10 }

/-- Body of the 1000 ms empty-queue re-check callback (`user.js` 1742-1757):
if chunks arrived during the grace window, continue scheduling; otherwise, if
still playing, leave the Playing state and emit playback-complete. -/
def graceRecheck (s : SchedState) : SchedState × List SchedOut :=
  if 0 < s.audioQueue.length then scheduleNextChunk s
  else if s.isPlayingAudio then
    ({ s with isPlayingAudio := false }, [SchedOut.complete])
  else (s, [])

/-- `playAudioDelta` (`user.js` 1503-1549) on an already base64-decoded byte
buffer: lazily initialise the playback state, view the bytes as an
`Int16Array` (dropping the chunk on a `MalformedAudio` error, which the
`catch` turns into a logged no-op), convert to a buffer of duration
`sampleCount / 24000`, push it, and start playback when idle. -/
def playAudioDelta (clock : ℚ) (bytes : List ℕ) (s : SchedState) :
    SchedState × List SchedOut :=
  let s0 := if s.ctxInit then s else
    { ctxInit := true, audioQueue := [], isPlayingAudio := false, nextPlayTime := 0 }
  match bytesToInt16 bytes with
  | Except.error _ => (s0, [])
  | Except.ok vs =>
    let s1 := { s0 with audioQueue := s0.audioQueue ++ [(vs.length : ℚ) / 24000] }
    if s1.isPlayingAudio then (s1, []) else startSeamlessPlayback clock s1

/-- Events driving the scheduler: a network delta arriving at a given output
clock time, the per-chunk continuation timer, and the grace re-check timer. -/
inductive SchedEv
  | arrive (clock : ℚ) (bytes : List ℕ)
  | chunkTimer
  | graceTimer

/-- Dispatch one event. -/
def schedStep (s : SchedState) : SchedEv → SchedState × List SchedOut
  | SchedEv.arrive clock bytes => playAudioDelta clock bytes s
  | SchedEv.chunkTimer => scheduleNextChunk s
  | SchedEv.graceTimer => graceRecheck s

/-- Run a sequence of events, collecting all observable outputs in order. -/
def schedRun : SchedState → List SchedEv → SchedState × List SchedOut
  | s, [] => (s, [])
  | s, e :: evs =>
    let r := schedStep s e
    let r2 := schedRun r.1 evs
    (r2.1, r.2 ++ r2.2)

/-- A list of outputs is gaplessly chained from time `p`: each scheduled chunk
starts exactly at the accumulated end time of its predecessors. -/
inductive IsChained : ℚ → List SchedOut → Prop
  | nil (p : ℚ) : IsChained p []
  | cons (p d : ℚ) (outs : List SchedOut) (h : IsChained (p + d) outs) :
      IsChained p (SchedOut.sched p d :: outs)

/-- Event predicate used to delimit a single response's playback run. -/
def isArrive : SchedEv → Bool
  | SchedEv.arrive _ _ => true
  | _ => false

/-! ## Capture Pipeline (`user.js` 1412-1492: `onaudioprocess` callback,
`stopRecording`, `signalEndOfUserInput`, `sendAudioChunk`).

The capture state holds the `isRecording` flag, the transport availability
flags checked by the send paths (`websocket.readyState === OPEN` in
`sendAudioChunk`, `dataChannel.readyState === 'open'` in
`signalEndOfUserInput`), and the ordered list of messages handed to the
transport.  Events are the audio-processor frame callbacks and the user's
stop action; the single-threaded event loop serialises them. -/

/-- Messages handed to the transport: an encoded audio chunk
(`input_audio_buffer.append`) or the end-of-input signal (`response.create`). -/
inductive CaptureMsg
  | audio (pcm : List ℤ)
  | responseCreate
deriving DecidableEq

/-- Mutable capture-session state. -/
structure CaptureState where
  isRecording : Bool
  wsOpen : Bool
  dcOpen : Bool
  sent : List CaptureMsg
deriving DecidableEq

/-- Capture events: a frame delivered by the script processor, or the user's
stop action. -/
inductive CaptureEv
  | frame (data : List ℚ)
  | stop

/-- The `onaudioprocess` callback (`user.js` 1412-1418): frames captured while
`isRecording` is false are discarded before encoding; otherwise the frame is
encoded with `convertToPCM16` and handed to `sendAudioChunk` (`user.js`
1479-1492), which sends only while the socket is open. -/
def onAudioProcess (s : CaptureState) (data : List ℚ) : CaptureState :=
  if s.isRecording then
    if s.wsOpen then
      { s with sent := s.sent ++ [CaptureMsg.audio (convertToPCM16 data)] }
    else s
  else s

/-- `signalEndOfUserInput` (`user.js` 1456-1468): send one `response.create`
through the data channel when it is open. -/
def signalEndOfUserInput (s : CaptureState) : CaptureState :=
  if s.dcOpen then { s with sent := s.sent ++ [CaptureMsg.responseCreate] }
  else s

/-- `stopRecording` (`user.js` 1440-1454): clear the recording flag first,
then signal end of input. -/
def stopRecording (s : CaptureState) : CaptureState :=
  signalEndOfUserInput { s with isRecording := false }

/-- Dispatch one capture event. -/
def capStep (s : CaptureState) : CaptureEv → CaptureState
  | CaptureEv.frame data => onAudioProcess s data
  | CaptureEv.stop => stopRecording s

/-- Run a sequence of capture events. -/
def capRun : CaptureState → List CaptureEv → CaptureState
  | s, [] => s
  | s, e :: evs => capRun (capStep s e) evs

/-! ## Host (Storyline) variable store (`user.js` 1632-1660 main
`updateStorylineVariables`, 1978-1983 `Script1` toggle;
`storyline_integration.js` 250-255 `updateStatus`).

The Storyline player's variable store is modelled as an association list of
named values.  `GetVar`/`SetVar` on a variable the host does not define throw,
modelled by the `Except` raw operations; a `try { ... } catch { log }` wrapper
around a single call is modelled by `trySetVar`, which degrades the error to
a no-op. -/

/-- A Storyline variable value. -/
inductive SVal
  | str (s : String)
  | num (n : ℤ)
  | bool (b : Bool)
deriving DecidableEq

/-- The host variable store: name/value pairs for the variables the host
defines. -/
def VarStore : Type := List (String × SVal)

/-- Does the host define this variable name? -/
def hasVar (st : VarStore) (n : String) : Bool :=
  st.any (fun p => p.1 == n)

/-- Value of a variable, if defined. -/
def getVarOpt (st : VarStore) (n : String) : Option SVal :=
  (st.find? (fun p => p.1 == n)).map (fun p => p.2)

/-- Overwrite every binding of a defined variable. -/
def setVarRaw (st : VarStore) (n : String) (v : SVal) : VarStore :=
  st.map (fun p => if p.1 == n then (p.1, v) else p)

/-- Error raised by the player when a script touches an undefined variable. -/
inductive VarError
  | varNotFound
deriving DecidableEq

/-- Raw `player.SetVar`: throws when the variable is not defined. -/
def setVarE (st : VarStore) (n : String) (v : SVal) : Except VarError VarStore :=
  if hasVar st n then Except.ok (setVarRaw st n v) else Except.error VarError.varNotFound

/-- Raw `player.GetVar`: throws when the variable is not defined. -/
def getVarE (st : VarStore) (n : String) : Except VarError SVal :=
  match getVarOpt st n with
  | some v => Except.ok v
  | none => Except.error VarError.varNotFound

/-- A `SetVar` call wrapped in its own `try { ... } catch { log }`: absence of
the variable degrades to a logged no-op. -/
def trySetVar (st : VarStore) (n : String) (v : SVal) : VarStore :=
  match setVarE st n v with
  | Except.ok st' => st'
  | Except.error _ => st

/-- `updateStorylineVariables` (`user.js` 1632-1660): only when a grade was
extracted (`grade !== null`) are `grade` and `gradeDisplay` written (each in
its own try/catch); a non-empty feedback string is written to `feedback`;
`ai_status` is always written.  The WebRTC variant (`user.js` 684-706) has
the same shape and the same null-grade behaviour. -/
def updateStorylineVariables (grade : Option ℕ) (feedback : String)
    (st : VarStore) : VarStore :=
  let st1 := match grade with
    | some g =>
      trySetVar (trySetVar st "grade" (SVal.num g)) "gradeDisplay"
        (SVal.str (toString g ++ "/10"))
    | none => st
  let st2 := if feedback ≠ "" then trySetVar st1 "feedback" (SVal.str feedback) else st1
  trySetVar st2 "ai_status" (SVal.str "AI feedback complete")

/-- JavaScript truthiness of a Storyline value, as used by
`!player.GetVar('isRecording')`. -/
def svalTruthy : SVal → Bool
  | SVal.str s => s ≠ ""
  | SVal.num n => n ≠ 0
  | SVal.bool b => b

/-- The `Script1` record-button toggle (`user.js` 1979):
`player.SetVar('isRecording', !player.GetVar('isRecording'))` — performed with
no try/catch, so an undefined `isRecording` variable propagates the error out
of `Script1`. -/
def script1Toggle (st : VarStore) : Except VarError VarStore := do
  let v ← getVarE st "isRecording"
  setVarE st "isRecording" (SVal.bool (!svalTruthy v))

/-- `updateStatus` (`storyline_integration.js` 250-255):
`this.player.SetVar(this.statusVariable, status)` with `statusVariable =
'ai_status'` and no try/catch around the `SetVar`. -/
def updateStatus (st : VarStore) (status : String) : Except VarError VarStore :=
  setVarE st "ai_status" (SVal.str status)

/-! ## Transcript Feedback Extractor (`user.js` 1598-1630 `processFeedback`;
the WebRTC variant 645-682 uses the identical pattern list and loop).

The four JavaScript regexes
`/\*\*rating[:\s]*(\d{1,2})\/10\*\*/i`, `/rating[:\s]*(\d{1,2})\/10/i`,
`/(\d{1,2})\/10/i`, `/rating[:\s]*(\d{1,2})/i` are embedded as token lists
over an executable backtracking matcher with JavaScript semantics: leftmost
match position wins, the `[:\s]*` quantifier and the `\d{1,2}` capture are
greedy with backtracking, and literals compare case-insensitively (the `i`
flag).  Every pattern contains exactly one capture group, whose 1-2 digit
value `parseInt` turns into the candidate grade. -/

/-- ASCII digit test (`\d`). -/
def isDigitCh (c : Char) : Bool := '0' ≤ c && c ≤ '9'

/-- The JavaScript `\s` class (WhiteSpace plus LineTerminator code points). -/
def jsWhitespace : List Char :=
  [' ', '\t', '\n', '\r', '\x0b', '\x0c', ' ', '﻿', ' ',
    ' ', ' ', ' ', ' ', ' ', ' ', ' ',
    ' ', ' ', ' ', ' ', ' ', ' ', ' ',
    ' ', '　']

/-- Membership in `\s`. -/
def isSpaceJS (c : Char) : Bool := jsWhitespace.contains c

/-- The character class `[:\s]`. -/
def isColonWs (c : Char) : Bool := c = ':' || isSpaceJS c

/-- Numeric value of an ASCII digit. -/
def digitVal (c : Char) : ℕ := c.toNat - '0'.toNat

/-- Tokens of the four grade regexes: a case-insensitive literal, the greedy
`[:\s]*` quantifier, and the greedy two-digit capture `(\d{1,2})`. -/
inductive RToken
  | lit (c : Char)
  | clsColonWs
  | capDigits
deriving DecidableEq

/-- Backtracking matcher: does the token list match a prefix of the input?
Returns `some acc` on success, where `acc` is the value captured by
`capDigits` (every grade pattern sets it before succeeding).  `[:\s]*` tries
the longest munch first and backtracks; `(\d{1,2})` tries two digits before
one, as a greedy quantifier does.  The fuel argument only drives structural
recursion; every recursive call is on the tail of the token list, so
`toks.length` fuel is always enough. -/
def matchToks : ℕ → List RToken → Option ℕ → List Char → Option (Option ℕ)
  | _, [], acc, _ => some acc
  | 0, _ :: _, _, _ => none
  | fuel + 1, RToken.lit c :: rest, acc, s =>
    match s with
    | [] => none
    | a :: s' => if a.toLower == c.toLower then matchToks fuel rest acc s' else none
  | fuel + 1, RToken.clsColonWs :: rest, acc, s =>
    (List.range ((s.takeWhile isColonWs).length + 1)).findSome?
      (fun i => matchToks fuel rest acc (s.drop ((s.takeWhile isColonWs).length - i)))
  | fuel + 1, RToken.capDigits :: rest, _acc, s =>
    match s with
    | [] => none
    | [a] => if isDigitCh a then matchToks fuel rest (some (digitVal a)) [] else none
    | a :: b :: s' =>
      if isDigitCh a then
        if isDigitCh b then
          match matchToks fuel rest (some (10 * digitVal a + digitVal b)) s' with
          | some r => some r
          | none => matchToks fuel rest (some (digitVal a)) (b :: s')
        else matchToks fuel rest (some (digitVal a)) (b :: s')
      else none

/-- Match the whole token list against a prefix of `s`. -/
def matchFull (toks : List RToken) (s : List Char) : Option (Option ℕ) :=
  matchToks toks.length toks none s

/-- JavaScript `String.prototype.match` with a non-global regex: return the
capture of the leftmost match, scanning start positions left to right. -/
def searchFrom (toks : List RToken) : List Char → Option ℕ
  | [] =>
    match matchFull toks [] with
    | some acc => acc
    | none => none
  | c :: s' =>
    match matchFull toks (c :: s') with
    | some acc => acc
    | none => searchFrom toks s'

/-- The literal `rating` (case-insensitive). -/
def ratingLit : List RToken :=
  [RToken.lit 'r', RToken.lit 'a', RToken.lit 't', RToken.lit 'i',
    RToken.lit 'n', RToken.lit 'g']

/-- Pattern 1: bolded rating out of ten. -/
def pat1 : List RToken :=
  [RToken.lit '*', RToken.lit '*'] ++ ratingLit ++
    [RToken.clsColonWs, RToken.capDigits, RToken.lit '/', RToken.lit '1',
      RToken.lit '0', RToken.lit '*', RToken.lit '*']

/-- Pattern 2: rating out of ten. -/
def pat2 : List RToken :=
  ratingLit ++ [RToken.clsColonWs, RToken.capDigits, RToken.lit '/',
    RToken.lit '1', RToken.lit '0']

/-- Pattern 3: bare fraction out of ten. -/
def pat3 : List RToken :=
  [RToken.capDigits, RToken.lit '/', RToken.lit '1', RToken.lit '0']

/-- Pattern 4: rating followed by a number. -/
def pat4 : List RToken := ratingLit ++ [RToken.clsColonWs, RToken.capDigits]

/-- The ordered pattern list of `processFeedback`. -/
def gradePatterns : List (List RToken) := [pat1, pat2, pat3, pat4]

/-- The extraction loop of `processFeedback` (`user.js` 1609-1619): take the
first pattern in order whose match captures an integer in `[1, 10]`; a match
whose captured integer is out of range falls through to the next pattern. -/
def gradeValidFirst : List (List RToken) → List Char → Option ℕ
  | [], _ => none
  | p :: ps, t =>
    match searchFrom p t with
    | some g => if 1 ≤ g ∧ g ≤ 10 then some g else gradeValidFirst ps t
    | none => gradeValidFirst ps t

/-- Grade extracted from a transcript by `processFeedback`. -/
def extractGrade (t : List Char) : Option ℕ := gradeValidFirst gradePatterns t

/-- The claimed selection rule, written from the spec's words: the result of
one pattern is accepted only when its captured integer lies in `[1, 10]`. -/
def validGrade (p : List RToken) (t : List Char) : Option ℕ :=
  match searchFrom p t with
  | some g => if 1 ≤ g ∧ g ≤ 10 then some g else none
  | none => none

/-- The feedback-publishing step driven by a transcript: `processFeedback`
extracts the grade and hands it with the transcript to
`updateStorylineVariables` (`user.js` 1598-1630). -/
def processFeedbackVars (transcript : String) (st : VarStore) : VarStore :=
  updateStorylineVariables (extractGrade transcript.toList) transcript st

/-- A concrete store from a previous session: the host defines
`gradeDisplay` (still holding the previous grade), `feedback` and
`ai_status`. -/
def staleStore : VarStore :=
  [("gradeDisplay", SVal.str "7/10"), ("feedback", SVal.str "old feedback"),
    ("ai_status", SVal.str "Ready")]

/-! ## Script2 configuration loading (`user.js` 46-118).

A temperature is loaded as `parseFloat(player.GetVar(name)) || 0.8` inside a
try/catch, then raised to `0.6` when below it.  The host interaction is
abstracted as `Option (Option ℚ)`: the outer `none` is a throwing `GetVar`
(caught, default applied), the inner `none` is a `parseFloat` result of
`NaN`.  JavaScript `||` replaces every falsy number — `NaN` but also `0` —
by the default.   A model name is loaded as `player.GetVar(name) || default`
in a try/catch and then checked against the supported-model whitelist. -/

/-- The default realtime model of `Script2`. -/
def defaultRealtimeModel : String := "gpt-4o-realtime-preview-2024-10-01"

/-- The `supportedRealtimeModels` whitelist (`user.js` 90-94). -/
def supportedRealtimeModels : List String :=
  ["gpt-4o-realtime-preview-2024-10-01", "gpt-4o-realtime-preview-2024-12-17",
    "gpt-4o-realtime-preview"]

/-- Temperature configuration pipeline of `Script2` (`user.js` 46-71):
`parseFloat(GetVar(...)) || 0.8`, with any result below `0.6` raised to
`0.6`. -/
def tempConfig (raw : Option (Option ℚ)) : ℚ :=
  let t : ℚ :=
    match raw with
    | none => 0.8
    | some none => 0.8
    | some (some v) => if v = 0 then 0.8 else v
  if t < 0.6 then 0.6 else t

/-- Model configuration pipeline of `Script2` (`user.js` 73-104):
`GetVar(...) || default`, replaced by the default unless on the whitelist. -/
def modelConfig (raw : Option String) : String :=
  let m : String :=
    match raw with
    | none => defaultRealtimeModel
    | some s => if s = "" then defaultRealtimeModel else s
  if m ∈ supportedRealtimeModels then m else defaultRealtimeModel

/-! ## Theorems -/

theorem toInt16_eq_self {z : ℤ} (h1 : -32768 ≤ z) (h2 : z ≤ 32767) :
    toInt16 z = z := by
  unfold toInt16
  omega

theorem ratTrunc_nonneg_eq_floor {q : ℚ} (h : 0 ≤ q) : ratTrunc q = ⌊q⌋ := by
  unfold ratTrunc
  rw [if_neg (not_lt.mpr h)]

theorem ratTrunc_neg_eq_ceil {q : ℚ} (h : q < 0) : ratTrunc q = ⌈q⌉ := by
  unfold ratTrunc
  rw [if_pos h]

theorem convertToPCM16Elem_in_range (s : ℚ) :
    -32768 ≤ convertToPCM16Elem s ∧ convertToPCM16Elem s ≤ 32767 := by
  unfold convertToPCM16Elem
  set c := max (-1) (min 1 s) with hc
  have hc1 : -1 ≤ c := le_max_left _ _
  have hc2 : c ≤ 1 := max_le (by norm_num) (min_le_left _ _)
  by_cases hneg : c < 0
  · rw [if_pos hneg, ratTrunc_neg_eq_ceil (by nlinarith)]
    have hlow : (-32768 : ℚ) ≤ c * 32768 := by nlinarith
    have h1 : (-32768 : ℤ) ≤ ⌈c * 32768⌉ := by
      have := Int.le_ceil (c * 32768)
      exact_mod_cast hlow.trans this
    have h2 : ⌈c * 32768⌉ ≤ 0 := by
      have : (c * 32768 : ℚ) ≤ ((0 : ℤ) : ℚ) := by push_cast; nlinarith
      exact Int.ceil_le.mpr this
    rw [toInt16_eq_self h1 (by omega)]
    omega
  · push_neg at hneg
    rw [if_neg (not_lt.mpr hneg), ratTrunc_nonneg_eq_floor (by nlinarith)]
    have h1 : (0 : ℤ) ≤ ⌊c * 32767⌋ := Int.floor_nonneg.mpr (by nlinarith)
    have h2 : ⌊c * 32767⌋ ≤ 32767 := by
      have : (c * 32767 : ℚ) ≤ 32767 := by nlinarith
      calc ⌊c * 32767⌋ ≤ ⌊(32767 : ℚ)⌋ := Int.floor_le_floor this
        _ = 32767 := by norm_num
    rw [toInt16_eq_self (by omega) h2]
    omega

theorem clamp_eq_self {s : ℚ} (h1 : -1 ≤ s) (h2 : s ≤ 1) :
    max (-1) (min 1 s) = s := by
  rw [min_eq_right h2, max_eq_right h1]

theorem convertElem_one : convertToPCM16Elem 1 = 32767 := by
  unfold convertToPCM16Elem
  rw [min_self, max_eq_right (by norm_num : (-1 : ℚ) ≤ 1), if_neg (by norm_num)]
  have h : (1 : ℚ) * 32767 = ((32767 : ℤ) : ℚ) := by push_cast; ring
  rw [ratTrunc_nonneg_eq_floor (by norm_num), h, Int.floor_intCast]
  unfold toInt16
  decide

theorem convertElem_neg_one : convertToPCM16Elem (-1) = -32768 := by
  unfold convertToPCM16Elem
  rw [min_eq_right (by norm_num : (-1 : ℚ) ≤ 1), max_self, if_pos (by norm_num)]
  have h : (-1 : ℚ) * 32768 = ((-32768 : ℤ) : ℚ) := by push_cast; ring
  rw [ratTrunc_neg_eq_ceil (by norm_num), h, Int.ceil_intCast]
  unfold toInt16
  decide

theorem inlineElem_neg_one : inlineEncodeElem (-1) = -32767 := by
  unfold inlineEncodeElem
  rw [min_eq_right (by norm_num : (-1 : ℚ) * 32767 ≤ 32767),
    max_eq_right (by norm_num : (-32768 : ℚ) ≤ -1 * 32767)]
  have h : (-1 : ℚ) * 32767 = ((-32767 : ℤ) : ℚ) := by push_cast; ring
  rw [ratTrunc_neg_eq_ceil (by norm_num), h, Int.ceil_intCast]
  unfold toInt16
  decide

/-- C4 counterexample: at the concrete in-range sample `s = 99999/100000` the
round-trip error of encode-then-decode exceeds `1/32768`, refuting the claimed
quantization bound. -/
theorem roundTrip_error_exceeds_one_quantum :
    (-1 : ℚ) ≤ 99999 / 100000 ∧ (99999 / 100000 : ℚ) ≤ 1 ∧
      1 / 32768 < |roundTrip (99999 / 100000) - 99999 / 100000| := by
  refine ⟨by norm_num, by norm_num, ?_⟩
  have h : roundTrip (99999 / 100000) = 16383 / 16384 := by
    unfold roundTrip decodeSample convertToPCM16Elem
    rw [clamp_eq_self (by norm_num) (by norm_num), if_neg (by norm_num)]
    rw [ratTrunc_nonneg_eq_floor (by norm_num)]
    have hf : ⌊(99999 / 100000 : ℚ) * 32767⌋ = 32766 := by
      rw [Int.floor_eq_iff]
      constructor <;> norm_num
    rw [hf]
    unfold toInt16
    norm_num
  rw [h, abs_of_neg (by norm_num)]
  norm_num

/-- C4 (amended): for every sample `s ∈ [-1, 1]`, decoding the PCM16 encoding
of `[s]` (encode = `convertToPCM16`, decode = the division by `32768.0` in
`playAudioDelta`) yields a value within `2/32768` of `s`.  The bound `2/32768`
is tight up to the quantum: the encoder scales non-negative samples by `32767`
while the decoder divides by `32768`, so the error reaches beyond `1/32768`
for non-negative samples close to `1`. -/
theorem roundTrip_error_le_two_quanta (s : ℚ) (h1 : -1 ≤ s) (h2 : s ≤ 1) :
    |roundTrip s - s| ≤ 2 / 32768 := by
  unfold roundTrip decodeSample convertToPCM16Elem
  rw [clamp_eq_self h1 h2]
  by_cases hneg : s < 0
  · rw [if_pos hneg, ratTrunc_neg_eq_ceil (by nlinarith)]
    have hlow : (-32768 : ℚ) ≤ s * 32768 := by nlinarith
    have hle : s * 32768 ≤ (⌈s * 32768⌉ : ℚ) := Int.le_ceil _
    have hlt : (⌈s * 32768⌉ : ℚ) < s * 32768 + 1 := Int.ceil_lt_add_one _
    have hz1 : (-32768 : ℤ) ≤ ⌈s * 32768⌉ := by exact_mod_cast hlow.trans hle
    have hz2 : ⌈s * 32768⌉ ≤ 0 := by
      have : (s * 32768 : ℚ) ≤ ((0 : ℤ) : ℚ) := by push_cast; nlinarith
      exact Int.ceil_le.mpr this
    rw [toInt16_eq_self hz1 (by omega)]
    rw [abs_le]
    constructor <;> [nlinarith; nlinarith]
  · push_neg at hneg
    rw [if_neg (not_lt.mpr hneg), ratTrunc_nonneg_eq_floor (by nlinarith)]
    have hle : (⌊s * 32767⌋ : ℚ) ≤ s * 32767 := Int.floor_le _
    have hlt : s * 32767 < (⌊s * 32767⌋ : ℚ) + 1 := Int.lt_floor_add_one _
    have hz1 : (0 : ℤ) ≤ ⌊s * 32767⌋ := Int.floor_nonneg.mpr (by nlinarith)
    have hz2 : ⌊s * 32767⌋ ≤ 32767 := by
      have h : (s * 32767 : ℚ) ≤ 32767 := by nlinarith
      calc ⌊s * 32767⌋ ≤ ⌊(32767 : ℚ)⌋ := Int.floor_le_floor h
        _ = 32767 := by norm_num
    rw [toInt16_eq_self (by omega) hz2]
    rw [abs_le]
    constructor <;> [nlinarith; nlinarith]

/-- Witness for `roundTrip_error_le_two_quanta` at the concrete sample `1/2`. -/
theorem roundTrip_error_le_two_quanta_witness :
    (-1 : ℚ) ≤ 1 / 2 ∧ (1 / 2 : ℚ) ≤ 1 ∧ |roundTrip (1 / 2) - 1 / 2| ≤ 2 / 32768 :=
  ⟨by norm_num, by norm_num,
    roundTrip_error_le_two_quanta (1 / 2) (by norm_num) (by norm_num)⟩

/-- C5 counterexample: the inline capture-path encoder of the WebRTC variant
(`user.js` 398) maps the sample `-1.0` to `-32767`, not to `-32768` as the
claimed asymmetric scaling (negative samples times `32768`) would produce. -/
theorem inlineEncode_not_asymmetric :
    inlineEncodeElem (-1) = -32767 ∧ inlineEncodeElem (-1) ≠ -32768 := by
  refine ⟨inlineElem_neg_one, ?_⟩
  rw [inlineElem_neg_one]
  decide

/-- C5 (amended): `convertToPCM16` (both the `user.js` 1470-1477 copy and the
identical `storyline_integration.js` 177-184 copy) clamps each sample to
`[-1, 1]` and scales asymmetrically (negative samples by `32768`, non-negative
by `32767`), mapping `1` to `32767` and `-1` to `-32768` with every output in
the signed 16-bit range; the inline capture-path encoder of the WebRTC variant
(`user.js` 395-399) instead scales every sample by `32767` and clamps the
scaled value to `[-32768, 32767]`, so it maps `-1` to `-32767`. -/
theorem encoder_scaling_characterization (s : ℚ) (h1 : -1 ≤ s) (h2 : s ≤ 1) :
    convertToPCM16Elem s = toInt16 (ratTrunc (if s < 0 then s * 32768 else s * 32767)) ∧
      convertToPCM16Elem 1 = 32767 ∧ convertToPCM16Elem (-1) = -32768 ∧
      -32768 ≤ convertToPCM16Elem s ∧ convertToPCM16Elem s ≤ 32767 ∧
      inlineEncodeElem s = toInt16 (ratTrunc (s * 32767)) ∧
      inlineEncodeElem (-1) = -32767 := by
  refine ⟨?_, convertElem_one, convertElem_neg_one, (convertToPCM16Elem_in_range s).1,
    (convertToPCM16Elem_in_range s).2, ?_, inlineElem_neg_one⟩
  · unfold convertToPCM16Elem
    rw [clamp_eq_self h1 h2]
  · unfold inlineEncodeElem
    have ha : s * 32767 ≤ 32767 := by nlinarith
    have hb : (-32768 : ℚ) ≤ s * 32767 := by nlinarith
    rw [min_eq_right ha, max_eq_right hb]

/-- Witness for `encoder_scaling_characterization` at the concrete sample `-1/4`. -/
theorem encoder_scaling_characterization_witness :
    (-1 : ℚ) ≤ -1 / 4 ∧ (-1 / 4 : ℚ) ≤ 1 ∧
      (convertToPCM16Elem (-1 / 4) =
          toInt16 (ratTrunc (if (-1 / 4 : ℚ) < 0 then (-1 / 4 : ℚ) * 32768
            else (-1 / 4 : ℚ) * 32767)) ∧
        convertToPCM16Elem 1 = 32767 ∧ convertToPCM16Elem (-1) = -32768 ∧
        -32768 ≤ convertToPCM16Elem (-1 / 4) ∧ convertToPCM16Elem (-1 / 4) ≤ 32767 ∧
        inlineEncodeElem (-1 / 4) = toInt16 (ratTrunc ((-1 / 4 : ℚ) * 32767)) ∧
        inlineEncodeElem (-1) = -32767) :=
  ⟨by norm_num, by norm_num,
    encoder_scaling_characterization (-1 / 4) (by norm_num) (by norm_num)⟩

theorem schedRun_nil (s : SchedState) : schedRun s [] = (s, []) := rfl

theorem schedRun_cons (s : SchedState) (e : SchedEv) (evs : List SchedEv) :
    schedRun s (e :: evs) =
      ((schedRun (schedStep s e).1 evs).1,
        (schedStep s e).2 ++ (schedRun (schedStep s e).1 evs).2) := rfl

/-- Steady-state chaining: from any playing state, as long as no completion
event is emitted, every chunk scheduled by any interleaving of arrivals and
timer callbacks starts exactly at the accumulated `nextPlayTime`. -/
theorem schedRun_chained (evs : List SchedEv) :
    ∀ s : SchedState, s.ctxInit = true → s.isPlayingAudio = true →
      SchedOut.complete ∉ (schedRun s evs).2 →
      IsChained s.nextPlayTime (schedRun s evs).2 := by
  induction evs with
  | nil =>
    intro s _ _ _
    rw [schedRun_nil]
    exact IsChained.nil _
  | cons e evs ih =>
    intro s hctx hplay hnc
    rw [schedRun_cons] at hnc ⊢
    cases e with
    | arrive clock bytes =>
      cases hb : bytesToInt16 bytes with
      | error err =>
        have hs : schedStep s (SchedEv.arrive clock bytes) = (s, []) := by
          simp [schedStep, playAudioDelta, hctx, hb]
        rw [hs] at hnc ⊢
        simp only [List.nil_append] at hnc ⊢
        exact ih s hctx hplay hnc
      | ok vs =>
        have hs : schedStep s (SchedEv.arrive clock bytes) =
            ({ s with audioQueue := s.audioQueue ++ [(vs.length : ℚ) / 24000] }, []) := by
          simp [schedStep, playAudioDelta, hctx, hb, hplay]
        rw [hs] at hnc ⊢
        simp only [List.nil_append] at hnc ⊢
        exact ih { s with audioQueue := s.audioQueue ++ [(vs.length : ℚ) / 24000] }
          hctx hplay hnc
    | chunkTimer =>
      cases hq : s.audioQueue with
      | nil =>
        have hs : schedStep s SchedEv.chunkTimer = (s, []) := by
          simp [schedStep, scheduleNextChunk, hq]
        rw [hs] at hnc ⊢
        simp only [List.nil_append] at hnc ⊢
        exact ih s hctx hplay hnc
      | cons d rest =>
        have hs : schedStep s SchedEv.chunkTimer =
            ({ s with audioQueue := rest, nextPlayTime := s.nextPlayTime + d },
              [SchedOut.sched s.nextPlayTime d]) := by
          simp [schedStep, scheduleNextChunk, hq]
        rw [hs] at hnc ⊢
        simp only [List.cons_append, List.nil_append, List.mem_cons] at hnc
        push_neg at hnc
        exact IsChained.cons _ _ _
          (ih { s with audioQueue := rest, nextPlayTime := s.nextPlayTime + d }
            hctx hplay hnc.2)
    | graceTimer =>
      cases hq : s.audioQueue with
      | nil =>
        have hs : schedStep s SchedEv.graceTimer =
            ({ s with isPlayingAudio := false }, [SchedOut.complete]) := by
          simp [schedStep, graceRecheck, hq, hplay]
        rw [hs] at hnc
        simp at hnc
      | cons d rest =>
        have hs : schedStep s SchedEv.graceTimer =
            ({ s with audioQueue := rest, nextPlayTime := s.nextPlayTime + d },
              [SchedOut.sched s.nextPlayTime d]) := by
          simp [schedStep, graceRecheck, scheduleNextChunk, hq]
        rw [hs] at hnc ⊢
        simp only [List.cons_append, List.nil_append, List.mem_cons] at hnc
        push_neg at hnc
        exact IsChained.cons _ _ _
          (ih { s with audioQueue := rest, nextPlayTime := s.nextPlayTime + d }
            hctx hplay hnc.2)

/-- C1: zero-gap invariant of the Playback Scheduler.  Part 1 (steady state):
from any playing state, while no completion fires, every scheduled chunk
starts exactly at the accumulated `nextPlayTime` — the previous chunk's start
plus its duration — regardless of when later chunks arrive.  Part 2 (run
start): from the idle empty-queue state, a well-formed delta arriving at
output-clock time `clock` starts the run with the first chunk scheduled at
`clock + 1/10` (the fixed 100 ms lead-in), and all subsequent chunks chain
gaplessly from it; arrival wall-clock times of later chunks never enter the
schedule. -/
theorem playback_zero_gap_invariant :
    (∀ (s : SchedState) (evs : List SchedEv), s.ctxInit = true →
        s.isPlayingAudio = true → SchedOut.complete ∉ (schedRun s evs).2 →
        IsChained s.nextPlayTime (schedRun s evs).2) ∧
      (∀ (s : SchedState) (clock : ℚ) (bytes : List ℕ) (vs : List ℤ)
          (evs : List SchedEv), s.ctxInit = true → s.isPlayingAudio = false →
          s.audioQueue = [] → bytesToInt16 bytes = Except.ok vs →
          SchedOut.complete ∉ (schedRun s (SchedEv.arrive clock bytes :: evs)).2 →
          IsChained (clock + 1 / 10) (schedRun s (SchedEv.arrive clock bytes :: evs)).2) := by
  refine ⟨fun s evs => schedRun_chained evs s, ?_⟩
  intro s clock bytes vs evs hctx hplay hq hb hnc
  have hs : schedStep s (SchedEv.arrive clock bytes) =
      ({ ctxInit := s.ctxInit, audioQueue := [],
          isPlayingAudio := true,
          nextPlayTime := clock + 1 / 10 + (vs.length : ℚ) / 24000 },
        [SchedOut.sched (clock + 1 / 10) ((vs.length : ℚ) / 24000)]) := by
    simp [schedStep, playAudioDelta, hctx, hb, hplay, hq, startSeamlessPlayback,
      scheduleNextChunk]
  rw [schedRun_cons] at hnc ⊢
  rw [hs] at hnc ⊢
  simp only [List.cons_append, List.nil_append, List.mem_cons] at hnc
  push_neg at hnc
  exact IsChained.cons _ _ _ (schedRun_chained evs
    { ctxInit := s.ctxInit, audioQueue := [], isPlayingAudio := true,
      nextPlayTime := clock + 1 / 10 + (vs.length : ℚ) / 24000 } hctx rfl hnc.2)

/-- Witness for `playback_zero_gap_invariant`: a concrete run with one
two-byte chunk arriving at clock 0 while idle, followed by a chunk timer,
schedules that chunk at `0 + 1/10`. -/
theorem playback_zero_gap_invariant_witness :
    SchedOut.complete ∉
        (schedRun ⟨true, [], false, 0⟩
          [SchedEv.arrive 0 [0, 0], SchedEv.chunkTimer]).2 ∧
      IsChained (0 + 1 / 10)
        (schedRun ⟨true, [], false, 0⟩ [SchedEv.arrive 0 [0, 0], SchedEv.chunkTimer]).2 := by
  have h1 : SchedOut.complete ∉
      (schedRun ⟨true, [], false, 0⟩ [SchedEv.arrive 0 [0, 0], SchedEv.chunkTimer]).2 := by
    simp [schedRun, schedStep, playAudioDelta, bytesToInt16, toSigned16,
      startSeamlessPlayback, scheduleNextChunk]
  exact ⟨h1, playback_zero_gap_invariant.2 ⟨true, [], false, 0⟩ 0 [0, 0] [0]
    [SchedEv.chunkTimer] rfl rfl rfl (by simp [bytesToInt16, toSigned16]) h1⟩

/-- In an idle (not-playing) state, a run containing no arrivals emits no
completion event: timer callbacks alone can never re-enter the Playing state. -/
theorem schedRun_idle_no_complete (evs : List SchedEv) :
    ∀ s : SchedState, (∀ e ∈ evs, isArrive e = false) → s.isPlayingAudio = false →
      List.count SchedOut.complete (schedRun s evs).2 = 0 := by
  induction evs with
  | nil =>
    intro s _ _
    rw [schedRun_nil]
    rfl
  | cons e evs ih =>
    intro s hna hplay
    have hna1 : isArrive e = false := hna e (List.mem_cons_self e evs)
    have hna2 : ∀ e' ∈ evs, isArrive e' = false :=
      fun e' he' => hna e' (List.mem_cons_of_mem e he')
    rw [schedRun_cons]
    cases e with
    | arrive clock bytes => simp [isArrive] at hna1
    | chunkTimer =>
      cases hq : s.audioQueue with
      | nil =>
        have hs : schedStep s SchedEv.chunkTimer = (s, []) := by
          simp [schedStep, scheduleNextChunk, hq]
        rw [hs]
        simpa using ih s hna2 hplay
      | cons d rest =>
        have hs : schedStep s SchedEv.chunkTimer =
            ({ s with audioQueue := rest, nextPlayTime := s.nextPlayTime + d },
              [SchedOut.sched s.nextPlayTime d]) := by
          simp [schedStep, scheduleNextChunk, hq]
        rw [hs]
        simpa [List.count_cons] using
          ih { s with audioQueue := rest, nextPlayTime := s.nextPlayTime + d } hna2 hplay
    | graceTimer =>
      cases hq : s.audioQueue with
      | nil =>
        have hs : schedStep s SchedEv.graceTimer = (s, []) := by
          simp [schedStep, graceRecheck, hq, hplay]
        rw [hs]
        simpa using ih s hna2 hplay
      | cons d rest =>
        have hs : schedStep s SchedEv.graceTimer =
            ({ s with audioQueue := rest, nextPlayTime := s.nextPlayTime + d },
              [SchedOut.sched s.nextPlayTime d]) := by
          simp [schedStep, graceRecheck, scheduleNextChunk, hq]
        rw [hs]
        simpa [List.count_cons] using
          ih { s with audioQueue := rest, nextPlayTime := s.nextPlayTime + d } hna2 hplay

/-- Within one response (no new arrival starting a fresh playback run), the
scheduler emits at most one completion event, from any starting state. -/
theorem schedRun_complete_at_most_once (evs : List SchedEv) :
    ∀ s : SchedState, (∀ e ∈ evs, isArrive e = false) →
      List.count SchedOut.complete (schedRun s evs).2 ≤ 1 := by
  induction evs with
  | nil =>
    intro s _
    rw [schedRun_nil]
    simp
  | cons e evs ih =>
    intro s hna
    have hna1 : isArrive e = false := hna e (List.mem_cons_self e evs)
    have hna2 : ∀ e' ∈ evs, isArrive e' = false :=
      fun e' he' => hna e' (List.mem_cons_of_mem e he')
    rw [schedRun_cons]
    cases e with
    | arrive clock bytes => simp [isArrive] at hna1
    | chunkTimer =>
      cases hq : s.audioQueue with
      | nil =>
        have hs : schedStep s SchedEv.chunkTimer = (s, []) := by
          simp [schedStep, scheduleNextChunk, hq]
        rw [hs]
        simpa using ih s hna2
      | cons d rest =>
        have hs : schedStep s SchedEv.chunkTimer =
            ({ s with audioQueue := rest, nextPlayTime := s.nextPlayTime + d },
              [SchedOut.sched s.nextPlayTime d]) := by
          simp [schedStep, scheduleNextChunk, hq]
        rw [hs]
        simpa [List.count_cons] using
          ih { s with audioQueue := rest, nextPlayTime := s.nextPlayTime + d } hna2
    | graceTimer =>
      cases hq : s.audioQueue with
      | nil =>
        cases hplay : s.isPlayingAudio with
        | false =>
          have hs : schedStep s SchedEv.graceTimer = (s, []) := by
            simp [schedStep, graceRecheck, hq, hplay]
          rw [hs]
          simpa using ih s hna2
        | true =>
          have hs : schedStep s SchedEv.graceTimer =
              ({ s with isPlayingAudio := false }, [SchedOut.complete]) := by
            simp [schedStep, graceRecheck, hq, hplay]
          rw [hs]
          have h0 := schedRun_idle_no_complete evs { s with isPlayingAudio := false } hna2 rfl
          simp [List.count_cons, h0]
      | cons d rest =>
        have hs : schedStep s SchedEv.graceTimer =
            ({ s with audioQueue := rest, nextPlayTime := s.nextPlayTime + d },
              [SchedOut.sched s.nextPlayTime d]) := by
          simp [schedStep, graceRecheck, scheduleNextChunk, hq]
        rw [hs]
        simpa [List.count_cons] using
          ih { s with audioQueue := rest, nextPlayTime := s.nextPlayTime + d } hna2

/-- C3: playback-completion grace window.  Part 1: if the queue is still empty
at the grace re-check while playing, the scheduler transitions to idle and
emits exactly the playback-complete event, touching nothing else.  Part 2: if
any chunk arrived during the grace window (queue non-empty at the re-check),
the re-check emits no completion, stays in the Playing state, and resumes the
steady-state scheduling of the oldest queued chunk.  Part 3: within one
response — i.e. along any run without a new arrival — at most one completion
event ever fires. -/
theorem playback_completion_grace_window :
    (∀ s : SchedState, s.audioQueue = [] → s.isPlayingAudio = true →
        graceRecheck s = ({ s with isPlayingAudio := false }, [SchedOut.complete])) ∧
      (∀ (s : SchedState) (d : ℚ) (rest : List ℚ), s.audioQueue = d :: rest →
        (graceRecheck s).2 = [SchedOut.sched s.nextPlayTime d] ∧
          (graceRecheck s).1.isPlayingAudio = s.isPlayingAudio ∧
          (graceRecheck s).1.audioQueue = rest) ∧
      (∀ (s : SchedState) (evs : List SchedEv), (∀ e ∈ evs, isArrive e = false) →
        List.count SchedOut.complete (schedRun s evs).2 ≤ 1) := by
  refine ⟨?_, ?_, fun s evs h => schedRun_complete_at_most_once evs s h⟩
  · intro s hq hplay
    simp [graceRecheck, hq, hplay]
  · intro s d rest hq
    simp [graceRecheck, scheduleNextChunk, hq]

/-- Witness for `playback_completion_grace_window` at concrete states: an
empty-queue playing state completes once; a one-chunk queue keeps playing; a
double grace-timer run emits at most one completion. -/
theorem playback_completion_grace_window_witness :
    graceRecheck ⟨true, [], true, 5⟩ = (⟨true, [], false, 5⟩, [SchedOut.complete]) ∧
      ((graceRecheck ⟨true, [2], true, 5⟩).2 = [SchedOut.sched 5 2] ∧
        (graceRecheck ⟨true, [2], true, 5⟩).1.isPlayingAudio = true ∧
        (graceRecheck ⟨true, [2], true, 5⟩).1.audioQueue = []) ∧
      List.count SchedOut.complete
          (schedRun ⟨true, [], true, 5⟩ [SchedEv.graceTimer, SchedEv.graceTimer]).2 ≤ 1 :=
  ⟨playback_completion_grace_window.1 ⟨true, [], true, 5⟩ rfl rfl,
    playback_completion_grace_window.2.1 ⟨true, [2], true, 5⟩ 2 [] rfl,
    playback_completion_grace_window.2.2 ⟨true, [], true, 5⟩
      [SchedEv.graceTimer, SchedEv.graceTimer] (by decide)⟩

/-- A byte buffer of odd length always fails the `Int16Array` view with
`MalformedAudio`. -/
theorem bytesToInt16_odd :
    ∀ bytes : List ℕ, bytes.length % 2 = 1 →
      bytesToInt16 bytes = Except.error PlayError.malformedAudio
  | [], h => by simp at h
  | [b], _ => rfl
  | lo :: hi :: rest, h => by
    have hr : rest.length % 2 = 1 := by
      have : (lo :: hi :: rest).length = rest.length + 2 := by simp
      omega
    simp [bytesToInt16, bytesToInt16_odd rest hr]

/-- C6: malformed audio handling.  A delta whose decoded byte buffer has odd
length fails the decode step with `MalformedAudio`, and the failed
`playAudioDelta` call leaves the Playback Scheduler state — queue,
`isPlayingAudio`, `nextPlayTime` — completely unchanged and emits nothing:
the offending chunk is dropped without being enqueued and without crashing
the state machine. -/
theorem malformed_audio_drops_chunk (s : SchedState) (clock : ℚ) (bytes : List ℕ)
    (hctx : s.ctxInit = true) (hodd : bytes.length % 2 = 1) :
    bytesToInt16 bytes = Except.error PlayError.malformedAudio ∧
      playAudioDelta clock bytes s = (s, []) := by
  have hb := bytesToInt16_odd bytes hodd
  exact ⟨hb, by simp [playAudioDelta, hctx, hb]⟩

/-- Witness for `malformed_audio_drops_chunk` on a concrete one-byte buffer. -/
theorem malformed_audio_drops_chunk_witness :
    bytesToInt16 [7] = Except.error PlayError.malformedAudio ∧
      playAudioDelta 3 [7] ⟨true, [1], true, 9⟩ = (⟨true, [1], true, 9⟩, []) :=
  malformed_audio_drops_chunk ⟨true, [1], true, 9⟩ 3 [7] rfl rfl

theorem capRun_append (l1 l2 : List CaptureEv) :
    ∀ s : CaptureState, capRun s (l1 ++ l2) = capRun (capRun s l1) l2 := by
  induction l1 with
  | nil => intro s; rfl
  | cons e l1 ih => intro s; simp [capRun, ih]

/-- While recording with the socket open, a burst of frames appends exactly
their encodings, in capture order. -/
theorem capRun_frames_recording (frames : List (List ℚ)) :
    ∀ s : CaptureState, s.isRecording = true → s.wsOpen = true →
      capRun s (frames.map CaptureEv.frame) =
        { s with sent :=
            s.sent ++ frames.map (fun f => CaptureMsg.audio (convertToPCM16 f)) } := by
  induction frames with
  | nil => intro s _ _; simp [capRun]
  | cons f fs ih =>
    intro s hrec hws
    have h1 : capStep s (CaptureEv.frame f) =
        { s with sent := s.sent ++ [CaptureMsg.audio (convertToPCM16 f)] } := by
      simp [capStep, onAudioProcess, hrec, hws]
    simp only [List.map_cons, capRun, h1]
    rw [ih { s with sent := s.sent ++ [CaptureMsg.audio (convertToPCM16 f)] } hrec hws]
    simp

/-- Once the recording flag is false, frames change nothing at all. -/
theorem capRun_frames_stopped (frames : List (List ℚ)) :
    ∀ s : CaptureState, s.isRecording = false →
      capRun s (frames.map CaptureEv.frame) = s := by
  induction frames with
  | nil => intro s _; rfl
  | cons f fs ih =>
    intro s hrec
    have h1 : capStep s (CaptureEv.frame f) = s := by
      simp [capStep, onAudioProcess, hrec]
    simp only [List.map_cons, capRun, h1]
    exact ih s hrec

/-- C7: recording-stop cancellation and ordering.  For a session that starts
recording with an empty send log, captures frames `frames1`, stops, and then
receives any further frame callbacks `frames2`: the transport sees exactly
the encodings of `frames1` in capture order, followed by at most one
end-of-input `response.create` signal (sent iff the data channel is open);
no frame captured at or after the stop is ever sent, the recording flag ends
false, and the end-of-input signal occurs at most once. -/
theorem recording_stop_cancellation (s : CaptureState) (frames1 frames2 : List (List ℚ))
    (hrec : s.isRecording = true) (hws : s.wsOpen = true) (hsent : s.sent = []) :
    (capRun s (frames1.map CaptureEv.frame ++
          CaptureEv.stop :: frames2.map CaptureEv.frame)).sent =
        frames1.map (fun f => CaptureMsg.audio (convertToPCM16 f)) ++
          (if s.dcOpen then [CaptureMsg.responseCreate] else []) ∧
      (capRun s (frames1.map CaptureEv.frame ++
          CaptureEv.stop :: frames2.map CaptureEv.frame)).isRecording = false ∧
      List.count CaptureMsg.responseCreate
          (capRun s (frames1.map CaptureEv.frame ++
            CaptureEv.stop :: frames2.map CaptureEv.frame)).sent ≤ 1 := by
  have hsplit : capRun s (frames1.map CaptureEv.frame ++
      CaptureEv.stop :: frames2.map CaptureEv.frame) =
      capRun (capStep (capRun s (frames1.map CaptureEv.frame)) CaptureEv.stop)
        (frames2.map CaptureEv.frame) := by
    rw [capRun_append]
    rfl
  rw [hsplit, capRun_frames_recording frames1 s hrec hws, hsent]
  set a := frames1.map fun f => CaptureMsg.audio (convertToPCM16 f) with ha
  by_cases hdc : s.dcOpen = true
  · have hstop : capStep { s with sent := [] ++ a } CaptureEv.stop =
        { s with
          isRecording := false
          sent := ([] ++ a) ++ [CaptureMsg.responseCreate] } := by
      simp [capStep, stopRecording, signalEndOfUserInput, hdc]
    rw [hstop, capRun_frames_stopped frames2 _ rfl]
    have hnotin : CaptureMsg.responseCreate ∉ a := by
      rw [ha]
      simp
    refine ⟨by simp [hdc], rfl, ?_⟩
    simp [hdc, List.count_append, List.count_eq_zero.mpr hnotin]
  · have hdc' : s.dcOpen = false := by
      cases h : s.dcOpen
      · rfl
      · exact absurd h hdc
    have hstop : capStep { s with sent := [] ++ a } CaptureEv.stop =
        { s with isRecording := false, sent := [] ++ a } := by
      simp [capStep, stopRecording, signalEndOfUserInput, hdc']
    rw [hstop, capRun_frames_stopped frames2 _ rfl]
    have hnotin : CaptureMsg.responseCreate ∉ a := by
      rw [ha]
      simp
    refine ⟨by simp [hdc'], rfl, ?_⟩
    simp [hdc', List.count_eq_zero.mpr hnotin]

/-- Witness for `recording_stop_cancellation`: two frames recorded, stop, one
late frame; the transport log is the two encodings then one signal. -/
theorem recording_stop_cancellation_witness :
    (capRun ⟨true, true, true, []⟩ ([[0], [1]].map CaptureEv.frame ++
          CaptureEv.stop :: [[2]].map CaptureEv.frame)).sent =
        [[0], [1]].map (fun f => CaptureMsg.audio (convertToPCM16 f)) ++
          (if (⟨true, true, true, []⟩ : CaptureState).dcOpen then
            [CaptureMsg.responseCreate] else []) ∧
      (capRun ⟨true, true, true, []⟩ ([[0], [1]].map CaptureEv.frame ++
          CaptureEv.stop :: [[2]].map CaptureEv.frame)).isRecording = false ∧
      List.count CaptureMsg.responseCreate
          (capRun ⟨true, true, true, []⟩ ([[0], [1]].map CaptureEv.frame ++
            CaptureEv.stop :: [[2]].map CaptureEv.frame)).sent ≤ 1 :=
  recording_stop_cancellation ⟨true, true, true, []⟩ [[0], [1]] [[2]] rfl rfl rfl

theorem trySetVar_absent {st : VarStore} {n : String} (v : SVal)
    (h : hasVar st n = false) : trySetVar st n v = st := by
  simp [trySetVar, setVarE, h]

theorem getVarOpt_setVarRaw_ne (m n : String) (v : SVal) (h : m ≠ n) :
    ∀ st : VarStore, getVarOpt (setVarRaw st m v) n = getVarOpt st n := by
  intro st
  induction st with
  | nil => rfl
  | cons p st ih =>
    show getVarOpt ((if p.1 == m then (p.1, v) else p) :: setVarRaw st m v) n =
      getVarOpt (p :: st) n
    by_cases hpm : p.1 = m
    · have hb : (p.1 == m) = true := by simp [hpm]
      have hbn : (p.1 == n) = false := by
        simp only [beq_eq_false_iff_ne, ne_eq]
        intro hc
        exact h (hpm ▸ hc)
      simp only [hb, if_true]
      unfold getVarOpt
      simp only [List.find?, hbn]
      exact ih
    · have hb : (p.1 == m) = false := by simp [hpm]
      simp only [hb, Bool.false_eq_true, if_false]
      unfold getVarOpt
      simp only [List.find?]
      cases hbn : (p.1 == n) with
      | true => rfl
      | false => exact ih

theorem getVarOpt_trySetVar_ne (st : VarStore) (m n : String) (v : SVal)
    (h : m ≠ n) : getVarOpt (trySetVar st m v) n = getVarOpt st n := by
  unfold trySetVar setVarE
  by_cases hm : hasVar st m = true
  · simp only [hm, if_true]
    exact getVarOpt_setVarRaw_ne m n v h st
  · have hm' : hasVar st m = false := by
      cases hh : hasVar st m
      · rfl
      · exact absurd hh hm
    simp [hm']

theorem getVarOpt_setVarRaw_self (n : String) (v : SVal) :
    ∀ st : VarStore, hasVar st n = true →
      getVarOpt (setVarRaw st n v) n = some v := by
  intro st
  induction st with
  | nil => intro h; simp [hasVar] at h
  | cons p st ih =>
    intro h
    show getVarOpt ((if p.1 == n then (p.1, v) else p) :: setVarRaw st n v) n = some v
    by_cases hpn : (p.1 == n) = true
    · simp only [hpn, if_true]
      unfold getVarOpt
      simp only [List.find?, hpn]
      rfl
    · have hpn' : (p.1 == n) = false := by
        cases hh : (p.1 == n)
        · rfl
        · exact absurd hh hpn
      simp only [hpn', Bool.false_eq_true, if_false]
      unfold getVarOpt
      simp only [List.find?, hpn']
      have hst : hasVar st n = true := by
        simpa [hasVar, hpn'] using h
      exact ih hst

theorem getVarOpt_trySetVar_self (st : VarStore) (n : String) (v : SVal)
    (h : hasVar st n = true) : getVarOpt (trySetVar st n v) n = some v := by
  unfold trySetVar setVarE
  simp only [h, if_true]
  exact getVarOpt_setVarRaw_self n v st h

theorem gradeValidFirst_cons (p : List RToken) (ps : List (List RToken))
    (t : List Char) :
    gradeValidFirst (p :: ps) t =
      (validGrade p t).orElse (fun _ => gradeValidFirst ps t) := by
  cases h : searchFrom p t with
  | none => simp [gradeValidFirst, validGrade, h, Option.orElse]
  | some g =>
    by_cases hg : 1 ≤ g ∧ g ≤ 10
    · simp [gradeValidFirst, validGrade, h, hg, Option.orElse]
    · simp [gradeValidFirst, validGrade, h, hg, Option.orElse]

/-- C2: grade extraction.  The extracted grade is the result of trying the
four patterns in their fixed priority order and accepting the first whose
leftmost match captures an integer in `[1, 10]` (`validGrade` is that
acceptance rule written from the claim); and the three concrete examples:
the bolded transcript yields 8 via the first pattern, the bare `8/10` without
the word "rating" yields 8 via the third pattern, and `"Rating: 11"` matches
only out of range, so the grade is absent. -/
theorem grade_extraction_priority :
    (∀ t : List Char, extractGrade t =
        (validGrade pat1 t).orElse (fun _ => (validGrade pat2 t).orElse
          (fun _ => (validGrade pat3 t).orElse (fun _ => validGrade pat4 t)))) ∧
      extractGrade ("**Rating: 8/10** Good job".toList) = some 8 ∧
      extractGrade ("You scored about 8/10 today".toList) = some 8 ∧
      extractGrade ("Rating: 11".toList) = none := by
  refine ⟨?_, by decide, by decide, by decide⟩
  intro t
  show gradeValidFirst [pat1, pat2, pat3, pat4] t = _
  rw [gradeValidFirst_cons, gradeValidFirst_cons, gradeValidFirst_cons,
    gradeValidFirst_cons]
  cases h1 : validGrade pat1 t <;> cases h2 : validGrade pat2 t <;>
    cases h3 : validGrade pat3 t <;> cases h4 : validGrade pat4 t <;>
      simp [Option.orElse, gradeValidFirst]

/-- Keys are untouched by `setVarRaw`, so variable existence is stable. -/
theorem hasVar_setVarRaw (m : String) (v : SVal) :
    ∀ (st : VarStore) (n : String), hasVar (setVarRaw st m v) n = hasVar st n := by
  intro st n
  induction st with
  | nil => rfl
  | cons p st ih =>
    show hasVar ((if p.1 == m then (p.1, v) else p) :: setVarRaw st m v) n = _
    by_cases hpm : (p.1 == m) = true
    · simp only [hpm, if_true]
      simp only [hasVar, List.any_cons] at ih ⊢
      rw [ih]
    · have hpm' : (p.1 == m) = false := by
        cases hh : (p.1 == m)
        · rfl
        · exact absurd hh hpm
      simp only [hpm', Bool.false_eq_true, if_false]
      simp only [hasVar, List.any_cons] at ih ⊢
      rw [ih]

theorem hasVar_trySetVar (st : VarStore) (m n : String) (v : SVal) :
    hasVar (trySetVar st m v) n = hasVar st n := by
  unfold trySetVar setVarE
  by_cases hm : hasVar st m = true
  · simp only [hm, if_true]
    exact hasVar_setVarRaw m v st n
  · have hm' : hasVar st m = false := by
      cases hh : hasVar st m
      · rfl
      · exact absurd hh hm
    simp [hm']

/-- C8 counterexample: on a transcript from which no grade can be extracted,
the feedback-publishing step leaves `gradeDisplay` holding the previous
session's `"7/10"` — it is not set to any "ungraded" sentinel (the sentinel
the code uses elsewhere is `"Not graded yet"`). -/
theorem gradeDisplay_left_stale :
    extractGrade ("Good effort, keep practicing.".toList) = none ∧
      getVarOpt (processFeedbackVars "Good effort, keep practicing." staleStore)
          "gradeDisplay" = some (SVal.str "7/10") ∧
      SVal.str "7/10" ≠ SVal.str "Not graded yet" := by
  refine ⟨by decide, by decide, by decide⟩

/-- C8 (amended): when the grade is absent, `updateStorylineVariables` does
not write `gradeDisplay` at all — the host variable keeps whatever value it
had, stale or not; only when a grade was extracted is `gradeDisplay` set (to
`"g/10"`, provided the host defines the variable). -/
theorem ungraded_gradeDisplay_not_written :
    (∀ (st : VarStore) (feedback : String),
        getVarOpt (updateStorylineVariables none feedback st) "gradeDisplay" =
          getVarOpt st "gradeDisplay") ∧
      (∀ (st : VarStore) (g : ℕ) (feedback : String),
        hasVar st "gradeDisplay" = true →
          getVarOpt (updateStorylineVariables (some g) feedback st) "gradeDisplay" =
            some (SVal.str (toString g ++ "/10"))) := by
  constructor
  · intro st feedback
    unfold updateStorylineVariables
    dsimp only
    by_cases hf : feedback ≠ ""
    · rw [if_pos hf, getVarOpt_trySetVar_ne _ _ _ _ (by decide),
        getVarOpt_trySetVar_ne _ _ _ _ (by decide)]
    · rw [if_neg hf, getVarOpt_trySetVar_ne _ _ _ _ (by decide)]
  · intro st g feedback h
    unfold updateStorylineVariables
    dsimp only
    have h1 : hasVar (trySetVar st "grade" (SVal.num g)) "gradeDisplay" = true := by
      rw [hasVar_trySetVar]
      exact h
    have hset : getVarOpt
        (trySetVar (trySetVar st "grade" (SVal.num g)) "gradeDisplay"
          (SVal.str (toString g ++ "/10"))) "gradeDisplay" =
        some (SVal.str (toString g ++ "/10")) :=
      getVarOpt_trySetVar_self _ _ _ h1
    by_cases hf : feedback ≠ ""
    · rw [if_pos hf, getVarOpt_trySetVar_ne _ _ _ _ (by decide),
        getVarOpt_trySetVar_ne _ _ _ _ (by decide)]
      exact hset
    · rw [if_neg hf, getVarOpt_trySetVar_ne _ _ _ _ (by decide)]
      exact hset

/-- Witness for `ungraded_gradeDisplay_not_written` on the concrete stale
store: publishing with no grade keeps `"7/10"`; publishing grade 9 writes
`"9/10"`. -/
theorem ungraded_gradeDisplay_not_written_witness :
    getVarOpt (updateStorylineVariables none "hello" staleStore) "gradeDisplay" =
        getVarOpt staleStore "gradeDisplay" ∧
      getVarOpt (updateStorylineVariables (some 9) "hello" staleStore) "gradeDisplay" =
        some (SVal.str (toString 9 ++ "/10")) :=
  ⟨ungraded_gradeDisplay_not_written.1 staleStore "hello",
    ungraded_gradeDisplay_not_written.2 staleStore 9 "hello" (by decide)⟩

/-- C9 counterexample: two `GetVar`/`SetVar` call sites are not wrapped.  On a
host that does not define the variables, `Script1`'s record-button toggle
(`user.js` 1979) and `updateStatus` (`storyline_integration.js` 250-255) both
propagate the error out of the calling operation instead of degrading to a
no-op. -/
theorem unwrapped_var_sites_raise :
    script1Toggle [] = Except.error VarError.varNotFound ∧
      updateStatus [] "Connecting..." = Except.error VarError.varNotFound :=
  ⟨rfl, rfl⟩

/-- C9 (amended): the feedback-publishing path wraps each host variable
access so that a host defining none of the variables degrades to a complete
no-op; but the wrapping is not universal: `Script1`'s `isRecording` toggle
and `storyline_integration.js`'s `updateStatus` are unwrapped and raise when
their variable is undefined. -/
theorem var_wrapping_not_universal :
    (∀ (grade : Option ℕ) (feedback : String) (st : VarStore),
        hasVar st "grade" = false → hasVar st "gradeDisplay" = false →
        hasVar st "feedback" = false → hasVar st "ai_status" = false →
        updateStorylineVariables grade feedback st = st) ∧
      (∀ st : VarStore, hasVar st "ai_status" = false →
        ∀ status : String, updateStatus st status = Except.error VarError.varNotFound) ∧
      (∀ st : VarStore, getVarOpt st "isRecording" = none →
        script1Toggle st = Except.error VarError.varNotFound) := by
  refine ⟨?_, ?_, ?_⟩
  · intro grade feedback st h1 h2 h3 h4
    unfold updateStorylineVariables
    cases grade with
    | none =>
      by_cases hf : feedback ≠ "" <;>
        simp [hf, trySetVar_absent, h1, h2, h3, h4]
    | some g =>
      have e1 : trySetVar st "grade" (SVal.num g) = st := trySetVar_absent _ h1
      by_cases hf : feedback ≠ "" <;>
        simp [hf, e1, trySetVar_absent, h1, h2, h3, h4]
  · intro st h status
    simp [updateStatus, setVarE, h]
  · intro st h
    unfold script1Toggle
    rw [show getVarE st "isRecording" = Except.error VarError.varNotFound by
      simp [getVarE, h]]
    rfl

/-- Witness for `var_wrapping_not_universal` on the empty host store. -/
theorem var_wrapping_not_universal_witness :
    updateStorylineVariables (some 4) "text" [] = [] ∧
      updateStatus [] "Ready" = Except.error VarError.varNotFound ∧
      script1Toggle [] = Except.error VarError.varNotFound :=
  ⟨var_wrapping_not_universal.1 (some 4) "text" [] rfl rfl rfl rfl,
    var_wrapping_not_universal.2.1 [] rfl "Ready",
    var_wrapping_not_universal.2.2 [] rfl⟩

/-- C10 counterexample: a host temperature value of exactly `0` is below
`0.6`, yet it is not raised to `0.6`: JavaScript's `||` treats `0` as falsy,
so the pipeline yields the `0.8` default instead. -/
theorem tempConfig_zero_not_raised :
    tempConfig (some (some 0)) = 0.8 ∧ (0 : ℚ) < 0.6 ∧ (0.8 : ℚ) ≠ 0.6 := by
  refine ⟨?_, by norm_num, by norm_num⟩
  unfold tempConfig
  dsimp only
  rw [if_pos rfl, if_neg (by norm_num)]

/-- C10 (amended): after `Script2`'s configuration loading, the temperature
invariant `0.6 ≤ t` always holds; a missing variable, a non-numeric value,
or a value parsing to `0` defaults to `0.8`; any *non-zero* parsed value
below `0.6` is raised to `0.6`, and values at or above `0.6` are kept.  The
configured model is always a member of the supported-realtime-models
whitelist, and any value outside the whitelist is replaced by the default
model. -/
theorem script2_config_invariant :
    (∀ raw : Option (Option ℚ), 0.6 ≤ tempConfig raw) ∧
      tempConfig none = 0.8 ∧ tempConfig (some none) = 0.8 ∧
      tempConfig (some (some 0)) = 0.8 ∧
      (∀ v : ℚ, v ≠ 0 → v < 0.6 → tempConfig (some (some v)) = 0.6) ∧
      (∀ v : ℚ, 0.6 ≤ v → tempConfig (some (some v)) = v) ∧
      (∀ raw : Option String, modelConfig raw ∈ supportedRealtimeModels) ∧
      (∀ s : String, s ∉ supportedRealtimeModels →
        modelConfig (some s) = defaultRealtimeModel) := by
  have h08 : ¬((0.8 : ℚ) < 0.6) := by norm_num
  refine ⟨?_, ?_, ?_, ?_, ?_, ?_, ?_, ?_⟩
  · intro raw
    rcases raw with _ | vo
    · unfold tempConfig
      dsimp only
      rw [if_neg h08]
      norm_num
    · rcases vo with _ | v
      · unfold tempConfig
        dsimp only
        rw [if_neg h08]
        norm_num
      · unfold tempConfig
        dsimp only
        by_cases hv : v = 0
        · rw [if_pos hv, if_neg h08]
          norm_num
        · rw [if_neg hv]
          by_cases hlt : v < 0.6
          · rw [if_pos hlt]
          · rw [if_neg hlt]
            linarith [not_lt.mp hlt]
  · unfold tempConfig
    dsimp only
    rw [if_neg h08]
  · unfold tempConfig
    dsimp only
    rw [if_neg h08]
  · unfold tempConfig
    dsimp only
    rw [if_pos rfl, if_neg h08]
  · intro v hv hlt
    unfold tempConfig
    dsimp only
    rw [if_neg hv, if_pos hlt]
  · intro v hv
    unfold tempConfig
    dsimp only
    have hv0 : ¬(v = 0) := by
      intro hc
      rw [hc] at hv
      norm_num at hv
    rw [if_neg hv0, if_neg (not_lt.mpr hv)]
  · intro raw
    rcases raw with _ | s
    · unfold modelConfig
      dsimp only
      rw [if_pos (by decide)]
      decide
    · unfold modelConfig
      dsimp only
      by_cases he : s = ""
      · rw [if_pos he, if_pos (by decide)]
        decide
      · rw [if_neg he]
        by_cases hm : s ∈ supportedRealtimeModels
        · rw [if_pos hm]
          exact hm
        · rw [if_neg hm]
          decide
  · intro s hs
    unfold modelConfig
    dsimp only
    by_cases he : s = ""
    · rw [if_pos he, if_pos (by decide)]
    · rw [if_neg he, if_neg hs]

/-- Witness for `script2_config_invariant` at concrete host values. -/
theorem script2_config_invariant_witness :
    0.6 ≤ tempConfig (some (some 5)) ∧
      tempConfig (some (some (1 / 2))) = 0.6 ∧
      tempConfig (some (some (7 / 10))) = 7 / 10 ∧
      modelConfig (some "gpt-5") ∈ supportedRealtimeModels ∧
      modelConfig (some "gpt-5") = defaultRealtimeModel :=
  ⟨script2_config_invariant.1 (some (some 5)),
    script2_config_invariant.2.2.2.2.1 (1 / 2) (by norm_num) (by norm_num),
    script2_config_invariant.2.2.2.2.2.1 (7 / 10) (by norm_num),
    script2_config_invariant.2.2.2.2.2.2.1 (some "gpt-5"),
    script2_config_invariant.2.2.2.2.2.2.2 "gpt-5" (by decide)⟩
